import Mathlib

/-!
Verification of the constraint-network subsystem of
`relativeMatrixConstraints.py` (RedForty/RelativeMatrixConstraints).

The host application (Maya) is modelled as an explicit scene state: a list
of named, typed nodes carrying dynamic attributes, a list of plug-to-plug
connections, a set of keyframes, and a local-transformation assignment.
Each object's world transform is not a primitive of the model: the one
OpenMaya matrix read the source performs,
`MFnTransform.transformation().asMatrix()`, returns the object's local
(object-to-parent) transformation, and the world matrix is derived from
the local ones along the parent chain (`specWorldMatrix`).  The
host commands used by the source (`cmds.objExists`, `cmds.attributeQuery`,
`cmds.listConnections`, `cmds.createNode`, `cmds.addAttr`, `cmds.setAttr`,
`cmds.connectAttr`, `cmds.disconnectAttr`, `cmds.delete`,
`cmds.listRelatives`, `cmds.nodeType`, `cmds.bakeResults`) are modelled as
total functions on that state, following the external-interface contract
of the specification (they are opaque external services, not code of
this repository).  The program functions themselves are translated line by
line from the source.
-/

set_option maxRecDepth 10000

namespace RelMtx

/-- A 4x4 matrix over the rationals, standing for the host math engine's
4x4 transform matrices. -/
abbrev Mat4 := Matrix (Fin 4) (Fin 4) ℚ

/-- Host math engine's matrix inverse (`om2.MMatrix.inverse`), written
with the computable adjugate formula. -/
def Mat4.inverse (A : Mat4) : Mat4 := A.det⁻¹ • A.adjugate

/-- The computable inverse agrees with Mathlib's matrix inverse over ℚ. -/
theorem Mat4.inverse_eq (A : Mat4) : Mat4.inverse A = A⁻¹ := by
  rw [Matrix.inv_def, Ring.inverse_eq_inv, Mat4.inverse]

/-- A plug `node.attr`, the endpoint of a dependency-graph connection. -/
structure Plug where
  node : String
  attr : String
deriving Repr, DecidableEq

/-- A scene node: name, node type, optional DAG parent, dynamic
attributes added by `cmds.addAttr`, and stored string/bool attribute
values. -/
structure Node where
  name : String
  nodeType : String
  parent : Option String
  attrs : List String
  stringAttrs : List (String × String)
  boolAttrs : List (String × Bool)
deriving Repr, DecidableEq

/-- The host scene state: nodes, connections (source plug, destination
plug), keyframes `(node, attr, frame)`, and each object's local
(object-to-parent) transformation matrix — the value the OpenMaya call
`om2.MFnTransform(dagPath).transformation().asMatrix()` returns. -/
structure Scene where
  nodes : List Node
  connections : List (Plug × Plug)
  keys : List (String × String × Int)
  localTransform : String → Mat4

/-- Look a node up by name (host name resolution). -/
def Scene.findNode (s : Scene) (n : String) : Option Node :=
  s.nodes.find? (fun nd => decide (nd.name = n))

/-- Host `cmds.objExists`. -/
def Scene.objExists (s : Scene) (n : String) : Bool :=
  (s.findNode n).isSome

/-- Host `cmds.attributeQuery(attr, node=n, exists=True)`: whether the
named attribute is present on the named node. -/
def Scene.hasAttr (s : Scene) (n attr : String) : Bool :=
  match s.findNode n with
  | some nd => nd.attrs.contains attr
  | none => false

/-- Host `cmds.getAttr` on a string-typed attribute. -/
def Scene.getStringAttr (s : Scene) (n attr : String) : Option String :=
  match s.findNode n with
  | some nd => (nd.stringAttrs.find? (fun p => decide (p.1 = attr))).map Prod.snd
  | none => none

/-- Host `cmds.getAttr` on a bool-typed attribute. -/
def Scene.getBoolAttr (s : Scene) (n attr : String) : Option Bool :=
  match s.findNode n with
  | some nd => (nd.boolAttrs.find? (fun p => decide (p.1 = attr))).map Prod.snd
  | none => none

/-- Host `cmds.listConnections(plug, source=True)` with the default
`destination=True`: names of nodes connected on either side of the given
plug, upstream sources first. -/
def Scene.listConnectedNodes (s : Scene) (p : Plug) : List String :=
  ((s.connections.filter (fun c => decide (c.2 = p))).map (fun c => c.1.node))
    ++ ((s.connections.filter (fun c => decide (c.1 = p))).map (fun c => c.2.node))

/-- Host `cmds.listConnections(plug, source=True, destination=False,
plugs=True, connections=True)`, regrouped into `(dest_plug, src_plug)`
pairs as the source iterates them. -/
def Scene.listIncomingPairs (s : Scene) (p : Plug) : List (Plug × Plug) :=
  (s.connections.filter (fun c => decide (c.2 = p))).map (fun c => (c.2, c.1))

/-- Host `cmds.createNode(ty, name=nm)`; the host allocates a fresh name,
modelled by passing the allocated name in. -/
def Scene.createNode (s : Scene) (ty nm : String) : Scene :=
  { s with nodes :=
      { name := nm, nodeType := ty, parent := none,
        attrs := [], stringAttrs := [], boolAttrs := [] } :: s.nodes }

/-- Apply an update to the (unique) node with the given name. -/
def Scene.updateNode (s : Scene) (n : String) (f : Node → Node) : Scene :=
  { s with nodes := s.nodes.map (fun nd => if nd.name = n then f nd else nd) }

/-- Host `cmds.addAttr(n, longName=attr, ...)`. -/
def Scene.addAttr (s : Scene) (n attr : String) : Scene :=
  s.updateNode n (fun nd => { nd with attrs := nd.attrs ++ [attr] })

/-- Host `cmds.setAttr` on a bool attribute. -/
def Scene.setBoolAttr (s : Scene) (n attr : String) (b : Bool) : Scene :=
  s.updateNode n (fun nd =>
    { nd with boolAttrs := (nd.boolAttrs.filter (fun p => decide (p.1 ≠ attr))) ++ [(attr, b)] })

/-- Host `cmds.setAttr` on a string attribute. -/
def Scene.setStringAttr (s : Scene) (n attr v : String) : Scene :=
  s.updateNode n (fun nd =>
    { nd with stringAttrs := (nd.stringAttrs.filter (fun p => decide (p.1 ≠ attr))) ++ [(attr, v)] })

/-- Host `cmds.connectAttr(src, dst)`. -/
def Scene.connectAttr (s : Scene) (src dst : Plug) : Scene :=
  { s with connections := s.connections ++ [(src, dst)] }

/-- Host `cmds.disconnectAttr(src, dst)`. -/
def Scene.disconnectAttr (s : Scene) (src dst : Plug) : Scene :=
  { s with connections :=
      s.connections.filter (fun c => decide (¬(c.1 = src ∧ c.2 = dst))) }

/-- Host `cmds.delete(n)`: removes the node and every connection touching
it. -/
def Scene.deleteNode (s : Scene) (n : String) : Scene :=
  { s with
    nodes := s.nodes.filter (fun nd => decide (nd.name ≠ n)),
    connections := s.connections.filter (fun c => decide (c.1.node ≠ n ∧ c.2.node ≠ n)) }

/-- Host `cmds.listRelatives(n, parent=True)` collapsed to its head. -/
def Scene.parentOf (s : Scene) (n : String) : Option String :=
  match s.findNode n with
  | some nd => nd.parent
  | none => none

/-- Host `cmds.nodeType(n)`. -/
def Scene.nodeTypeOf (s : Scene) (n : String) : String :=
  match s.findNode n with
  | some nd => nd.nodeType
  | none => ""

/-- Python's `str.startswith`. -/
def pyStartsWith (s pre : String) : Bool :=
  pre.toList.isPrefixOf s.toList

/-- Host `cmds.ls(type=ty)`. -/
def Scene.lsByType (s : Scene) (ty : String) : List String :=
  (s.nodes.filter (fun nd => decide (nd.nodeType = ty))).map (fun nd => nd.name)

/-- Attributes baked by `_bake_with_viewport_off` (source line 102). -/
def bake_attrs : List String := ["tx", "ty", "tz", "rx", "ry", "rz"]

/-- The integer frames of the inclusive range sampled by
`cmds.bakeResults(..., time=(start, end), sampleBy=1)`. -/
def frameList (start end_ : Int) : List Int :=
  (List.range (end_ - start + 1).toNat).map (fun k : Nat => start + (k : Int))

/-- Host `cmds.bakeResults(target, ..., time=(start, end), sampleBy=1,
attribute=[tx..rz])`, per the external keyframe-sampling contract: a key
is written on each listed channel at each integer frame of the range. -/
def Scene.bakeResults (s : Scene) (target : String) (start end_ : Int) : Scene :=
  { s with keys :=
      s.keys ++ (bake_attrs.flatMap (fun a => (frameList start end_).map (fun f => (target, a, f)))) }

/-- Whether a keyframe is present on `n.a` at frame `f`. -/
def Scene.hasKey (s : Scene) (n a : String) (f : Int) : Bool :=
  s.keys.contains (n, a, f)

/-- Source line 32: the discovery marker attribute name. -/
def NETWORK_NODE_IDENTIFIER : String := "relMatrixConstraintData"

/-- Source lines 106-120: `find_constraint_network_nodes` — every node of
type `network` carrying the marker attribute. -/
def find_constraint_network_nodes (s : Scene) : List String :=
  let network_nodes := s.lsByType "network"
  network_nodes.filter (fun n => s.hasAttr n NETWORK_NODE_IDENTIFIER)

/-- The dict returned by `get_constraint_data` (source lines 135-144). -/
structure ConstraintData where
  network_node : String
  display_name : String
  source_ref : Option String
  source_driven : Option String
  target_ref : Option String
  target_driven : Option String
  mult_matrix : Option String
  decompose_matrix : Option String
deriving Repr, DecidableEq

/-- Source lines 160-164: resolve one message-reference attribute of the
record to the name of the connected object, `none` when the attribute is
missing or nothing is connected any more. -/
def readRef (s : Scene) (network_node attr : String) : Option String :=
  if s.hasAttr network_node attr then
    match s.listConnectedNodes ⟨network_node, attr⟩ with
    | [] => none
    | c :: _ => some c
  else none

/-- Source lines 123-166: `get_constraint_data`. -/
def get_constraint_data (s : Scene) (network_node : String) : ConstraintData :=
  { network_node := network_node
    display_name :=
      if s.hasAttr network_node "displayName" then
        (s.getStringAttr network_node "displayName").getD ""
      else ""
    source_ref := readRef s network_node "sourceRef"
    source_driven := readRef s network_node "sourceDriven"
    target_ref := readRef s network_node "targetRef"
    target_driven := readRef s network_node "targetDriven"
    mult_matrix := readRef s network_node "multMatrixNode"
    decompose_matrix := readRef s network_node "decomposeMatrixNode" }

/-- Source line 194: the display label f-string; the separator between
the two names is the three characters U+00E2 U+2020 U+2019 that the
source file holds between `{source_driven}` and `{target_driven}`. -/
def mk_display_name (source_driven target_driven : String) : String :=
  source_driven ++ " â†’ " ++ target_driven

/-- The six message-reference attribute names (source lines 198-199). -/
def message_attr_names : List String :=
  ["sourceRef", "sourceDriven", "targetRef", "targetDriven",
   "multMatrixNode", "decomposeMatrixNode"]

/-- Source lines 169-215: `create_constraint_network_node`.  The host
allocates the record node's fresh name (`relMtxConstraint_data#`), passed
in as `network_node`. -/
def create_constraint_network_node (s : Scene) (network_node : String)
    (source_ref source_driven target_ref target_driven mult_matrix decompose_matrix : String) :
    String × Scene :=
  let s := s.createNode "network" network_node
  let s := s.addAttr network_node NETWORK_NODE_IDENTIFIER
  let s := s.setBoolAttr network_node NETWORK_NODE_IDENTIFIER true
  let s := s.addAttr network_node "displayName"
  let s := s.setStringAttr network_node "displayName"
      (mk_display_name source_driven target_driven)
  let s := message_attr_names.foldl (fun s a => s.addAttr network_node a) s
  let conns : List (String × String) :=
    [(source_ref, "sourceRef"), (source_driven, "sourceDriven"),
     (target_ref, "targetRef"), (target_driven, "targetDriven"),
     (mult_matrix, "multMatrixNode"), (decompose_matrix, "decomposeMatrixNode")]
  let s := conns.foldl
    (fun s oc => s.connectAttr ⟨oc.1, "message"⟩ ⟨network_node, oc.2⟩) s
  (network_node, s)

/-- Source lines 218-261: `create_relative_matrix_constraint`.  The three
host-allocated fresh node names are passed in. -/
def create_relative_matrix_constraint (s : Scene)
    (mult_matrix decompose network_name : String)
    (source_ref source_driven target_ref target_driven : String) : String × Scene :=
  let s := s.createNode "multMatrix" mult_matrix
  let s := s.connectAttr ⟨source_driven, "worldMatrix[0]"⟩ ⟨mult_matrix, "matrixIn[0]"⟩
  let s := s.connectAttr ⟨source_ref, "worldInverseMatrix[0]"⟩ ⟨mult_matrix, "matrixIn[1]"⟩
  let s := s.connectAttr ⟨target_ref, "worldMatrix[0]"⟩ ⟨mult_matrix, "matrixIn[2]"⟩
  let s := match s.parentOf target_driven with
    | some p => s.connectAttr ⟨p, "worldInverseMatrix[0]"⟩ ⟨mult_matrix, "matrixIn[3]"⟩
    | none => s
  let s := s.createNode "decomposeMatrix" decompose
  let s := s.connectAttr ⟨mult_matrix, "matrixSum"⟩ ⟨decompose, "inputMatrix"⟩
  let s := s.connectAttr ⟨decompose, "outputTranslate"⟩ ⟨target_driven, "translate"⟩
  let s := s.connectAttr ⟨decompose, "outputRotate"⟩ ⟨target_driven, "rotate"⟩
  create_constraint_network_node s network_name
    source_ref source_driven target_ref target_driven mult_matrix decompose

/-- Source lines 264-282: `delete_constraint`.  Each removal is guarded:
Python truthiness of the field (`None`/empty string are falsy) and then
`cmds.objExists` against the current scene. -/
def delete_constraint (s : Scene) (network_node : String) : Scene :=
  let data := get_constraint_data s network_node
  let s1 :=
    match data.decompose_matrix with
    | some dm => if dm ≠ "" ∧ s.objExists dm then s.deleteNode dm else s
    | none => s
  let s2 :=
    match data.mult_matrix with
    | some mm => if mm ≠ "" ∧ s1.objExists mm then s1.deleteNode mm else s1
    | none => s1
  if s2.objExists network_node then s2.deleteNode network_node else s2

/-- Source line 293: the attribute set scanned by
`remove_connections_from_target`. -/
def target_attrs : List String :=
  ["translate", "rotate", "tx", "ty", "tz", "rx", "ry", "rz"]

/-- Source line 326: upstream node types that are plain scene objects and
must never be deleted by the disconnect pass. -/
def scene_object_types : List String :=
  ["transform", "joint", "mesh", "nurbsCurve", "nurbsSurface"]

/-- Insertion into the `nodes_to_delete` set, keeping insertion order. -/
def addToSet (l : List String) (n : String) : List String :=
  if l.contains n then l else l ++ [n]

/-- Source lines 308-332: the body of the per-connection loop of
`remove_connections_from_target`, acting on the running scene and the
accumulated `nodes_to_delete`. -/
def processPair (keep_anim_curves : Bool)
    (st : Scene × List String) (pr : Plug × Plug) : Scene × List String :=
  let s := st.1
  let dels := st.2
  let dest_plug := pr.1
  let src_plug := pr.2
  let src_node := src_plug.node
  let node_type := s.nodeTypeOf src_node
  if keep_anim_curves && pyStartsWith node_type "animCurve" then (s, dels)
  else
    let s := s.disconnectAttr src_plug dest_plug
    if scene_object_types.contains node_type then (s, dels)
    else
      let dels := addToSet dels src_node
      let dels :=
        if node_type = "decomposeMatrix" then
          match s.listConnectedNodes ⟨src_node, "inputMatrix"⟩ with
          | [] => dels
          | m :: _ => addToSet dels m
        else dels
      (s, dels)

/-- Source lines 297-332: one iteration of the outer attribute loop —
snapshot the incoming connections of `target.attr`, then walk the pairs. -/
def processAttr (target : String) (keep_anim_curves : Bool)
    (st : Scene × List String) (attr : String) : Scene × List String :=
  let pairs := st.1.listIncomingPairs ⟨target, attr⟩
  pairs.foldl (processPair keep_anim_curves) st

/-- Source lines 285-339: `remove_connections_from_target`. -/
def remove_connections_from_target (s : Scene) (target : String)
    (keep_anim_curves : Bool) : Scene :=
  let st := target_attrs.foldl (processAttr target keep_anim_curves) (s, [])
  st.2.foldl (fun s n => if s.objExists n then s.deleteNode n else s) st.1

/-- Source lines 652-655: the helper the source names `get_world_matrix`.
What it reads is `om2.MFnTransform(sel.getDagPath(0)).transformation()
.asMatrix()` — the object's local (object-to-parent) transformation
matrix, not its world matrix (the world matrix would be
`MDagPath.inclusiveMatrix()` or the `worldMatrix` plug that the builder
wires elsewhere in this same file). -/
def get_world_matrix (s : Scene) (obj : String) : Mat4 :=
  s.localTransform obj

/-- Source lines 657-660: `get_local_offset` —
`driven_matrix * ref_matrix.inverse()` over the matrices
`get_world_matrix` actually read, i.e. the local transformations. -/
def get_local_offset (s : Scene) (ref_obj driven_obj : String) : Mat4 :=
  (get_world_matrix s driven_obj) * Mat4.inverse (get_world_matrix s ref_obj)

/-- The 16 index pairs visited by the nested `for i / for j` loops of
`_verify_constraint` (source lines 666-669), in visit order. -/
def matrix_index_pairs : List (Fin 4 × Fin 4) :=
  (List.finRange 4).flatMap (fun i => (List.finRange 4).map (fun j => (i, j)))

/-- Source lines 665-669: the running maximum of the element-wise
absolute differences. -/
def max_abs_diff (A B : Mat4) : ℚ :=
  matrix_index_pairs.foldl (fun m ij => max m |A ij.1 ij.2 - B ij.1 ij.2|) 0

/-- Source lines 650-671: `_verify_constraint` with an explicit
tolerance argument. -/
def verify_constraint (s : Scene)
    (source_ref source_driven target_ref target_driven : String)
    (tolerance : ℚ) : Bool × ℚ :=
  let source_offset := get_local_offset s source_ref source_driven
  let target_offset := get_local_offset s target_ref target_driven
  let max_diff := max_abs_diff source_offset target_offset
  (decide (max_diff < tolerance), max_diff)

/-- `_verify_constraint` at its default tolerance `0.001`. -/
def verify_constraint_default (s : Scene)
    (source_ref source_driven target_ref target_driven : String) : Bool × ℚ :=
  verify_constraint s source_ref source_driven target_ref target_driven (1/1000)

/-- Accumulate an object's local transformations up its parent chain,
`world = local * parent_world` in the host's row-vector convention;
fuel-bounded by the node count, which covers every chain of the host's
acyclic scene graph. -/
def worldMatrixAux (s : Scene) : Nat → String → Mat4
  | 0, _ => 1
  | fuel + 1, n =>
    match s.findNode n with
    | none => 1
    | some nd =>
      match nd.parent with
      | none => s.localTransform n
      | some p => s.localTransform n * worldMatrixAux s fuel p

/-- The specification's world matrix (§3 and glossary: an object's
transform expressed in global scene coordinates), the reference the
verification claim measures against. -/
def specWorldMatrix (s : Scene) (n : String) : Mat4 :=
  worldMatrixAux s s.nodes.length n

/-- The specification's Relative Offset (§3):
`driven_world * ref_world⁻¹` over true world matrices, written with the
computable inverse (`Mat4.inverse_eq` shows it equals the mathematical
matrix inverse). -/
def spec_relative_offset (s : Scene) (ref_obj driven_obj : String) : Mat4 :=
  specWorldMatrix s driven_obj * Mat4.inverse (specWorldMatrix s ref_obj)

/-- Source lines 84-103: the scene effect of `_bake_with_viewport_off`
(the `viewport_off` wrapper only touches host UI state, modelled
separately as `UIState`). -/
def bake_with_viewport_off (s : Scene) (target : String) (start end_ : Int) : Scene :=
  s.bakeResults target start end_

/-- Source lines 730-755: the scene effect of `_on_bake_single` — reject
when the stored target is gone (Python falsy or non-existent), otherwise
bake then delete the record.  The returned flag tells whether baking
happened. -/
def on_bake_single (s : Scene) (network_node : String) (start end_ : Int) :
    Scene × Bool :=
  let data := get_constraint_data s network_node
  match data.target_driven with
  | none => (s, false)
  | some t =>
    if t = "" then (s, false)
    else if s.objExists t then
      let s := bake_with_viewport_off s t start end_
      let s := delete_constraint s network_node
      (s, true)
    else (s, false)

/-- The host UI state manipulated by the `viewport_off` decorator
(source lines 40-71): evaluation-manager mode list, `$gMainPane`
management, refresh suspension, timeslider visibility. -/
structure UIState where
  evalManagerModes : List String
  mainPaneManaged : Bool
  refreshSuspended : Bool
  timeSliderVisible : Bool
deriving Repr, DecidableEq

/-- Host `cmds.evaluationManager(mode=m)`. -/
def UIState.setEvalMode (u : UIState) (m : String) : UIState :=
  { u with evalManagerModes := [m] }

/-- Source lines 40-71: the `viewport_off` decorator around a body that
may finish normally or raise; the state the body leaves behind is
threaded either way, and the `finally` block runs on every exit path
before the result (value or re-raised exception) is returned. -/
def viewport_off_run {α : Type} (body : UIState → Except String α × UIState)
    (u0 : UIState) : Except String α × UIState :=
  let parallel := u0.evalManagerModes.contains "parallel"
  let u := if parallel then u0.setEvalMode "off" else u0
  let u := { u with mainPaneManaged := false }
  let u := { u with refreshSuspended := true }
  let u := { u with timeSliderVisible := false }
  let r := body u
  let u := { r.2 with refreshSuspended := false }
  let u := { u with timeSliderVisible := true }
  let u := if parallel then u.setEvalMode "parallel" else u
  let u := { u with mainPaneManaged := true }
  (r.1, u)

/-- A record is complete when all six stored references resolve. -/
def ConstraintData.isComplete (d : ConstraintData) : Bool :=
  d.source_ref.isSome && d.source_driven.isSome && d.target_ref.isSome &&
    d.target_driven.isSome && d.mult_matrix.isSome && d.decompose_matrix.isSome

/-! ### Concrete scenes used to instantiate the theorems -/

/-- The empty scene. -/
def sceneEmpty : Scene :=
  { nodes := [], connections := [], keys := [], localTransform := fun _ => 1 }

/-- A scene holding one constraint record over the spec's concrete
participant names. -/
def sceneExample : Scene :=
  (create_constraint_network_node sceneEmpty "relMtxConstraint_data1"
    "hand1" "prop1" "hand2" "prop2"
    "relMtxConstraint_multMatrix1" "relMtxConstraint_decomposeMatrix1").2

/-- The record node exactly as `create_constraint_network_node` builds
it: marker attribute set to `true`, display label stored, six message
attributes added. -/
def recordNode (network_node source_driven target_driven : String) : Node :=
  { name := network_node, nodeType := "network", parent := none,
    attrs := NETWORK_NODE_IDENTIFIER :: "displayName" :: message_attr_names,
    stringAttrs := [("displayName", mk_display_name source_driven target_driven)],
    boolAttrs := [(NETWORK_NODE_IDENTIFIER, true)] }

/-- The six message connections added by `create_constraint_network_node`,
in creation order. -/
def recordConns (network_node a b c d m n : String) : List (Plug × Plug) :=
  [(⟨a, "message"⟩, ⟨network_node, "sourceRef"⟩),
   (⟨b, "message"⟩, ⟨network_node, "sourceDriven"⟩),
   (⟨c, "message"⟩, ⟨network_node, "targetRef"⟩),
   (⟨d, "message"⟩, ⟨network_node, "targetDriven"⟩),
   (⟨m, "message"⟩, ⟨network_node, "multMatrixNode"⟩),
   (⟨n, "message"⟩, ⟨network_node, "decomposeMatrixNode"⟩)]

/-- A body that mutates the UI state and then raises, exercising the
error exit path of the wrapper. -/
def bodyRaises : UIState → Except String Unit × UIState := fun u =>
  (Except.error "bake failed", { u with timeSliderVisible := true })

/-- The UI state before a bake with parallel evaluation enabled. -/
def uiBefore : UIState :=
  { evalManagerModes := ["parallel"], mainPaneManaged := true,
    refreshSuspended := false, timeSliderVisible := true }

/-- A concrete four-participant scene for instantiating verification. -/
def sceneVerify : Scene :=
  { nodes :=
      [⟨"hand1", "transform", none, [], [], []⟩,
       ⟨"prop1", "transform", some "hand1", [], [], []⟩,
       ⟨"hand2", "transform", none, [], [], []⟩,
       ⟨"prop2", "transform", some "propGrp2", [], [], []⟩],
    connections := [], keys := [], localTransform := fun _ => 1 }

/-- Like `sceneVerify` but the target driven object has no parent. -/
def sceneVerifyNoParent : Scene :=
  { nodes :=
      [⟨"hand1", "transform", none, [], [], []⟩,
       ⟨"prop1", "transform", some "hand1", [], [], []⟩,
       ⟨"hand2", "transform", none, [], [], []⟩,
       ⟨"prop2", "transform", none, [], [], []⟩],
    connections := [], keys := [], localTransform := fun _ => 1 }

/-- The combiner's wired matrix inputs: connections whose destination is
a `matrixIn` port of the given node. -/
def wiredMatrixInputs (s : Scene) (mult : String) : List (Plug × Plug) :=
  s.connections.filter
    (fun c => decide (c.2.node = mult) && pyStartsWith c.2.attr "matrixIn")

/-- A concrete scene where the four participants exist and one
constraint record refers to them, ready to be baked. -/
def sceneBake : Scene :=
  (create_constraint_network_node sceneVerify "net1"
    "hand1" "prop1" "hand2" "prop2" "mm1" "dcm1").2

/-- A concrete scene with a target driven by one offset-applier fed by
one offset-combiner, plus untouched scene objects. -/
def sceneDriven : Scene :=
  { nodes :=
      [⟨"prop2", "transform", some "propGrp2", [], [], []⟩,
       ⟨"propGrp2", "transform", none, [], [], []⟩,
       ⟨"dcm1", "decomposeMatrix", none, [], [], []⟩,
       ⟨"mm1", "multMatrix", none, [], [], []⟩,
       ⟨"hand2", "joint", none, [], [], []⟩],
    connections :=
      [(⟨"mm1", "matrixSum"⟩, ⟨"dcm1", "inputMatrix"⟩),
       (⟨"dcm1", "outputTranslate"⟩, ⟨"prop2", "translate"⟩),
       (⟨"dcm1", "outputRotate"⟩, ⟨"prop2", "rotate"⟩)],
    keys := [], localTransform := fun _ => 1 }

/-- A concrete post-bake scene: the target is driven only by an
animation curve. -/
def sceneBaked : Scene :=
  { nodes :=
      [⟨"prop2", "transform", none, [], [], []⟩,
       ⟨"ac1", "animCurveTL", none, [], [], []⟩],
    connections := [(⟨"ac1", "output"⟩, ⟨"prop2", "tx"⟩)],
    keys := [], localTransform := fun _ => 1 }

/-- A concrete scene exposing the local-versus-world read: the four
participants exist, `prop2` sits under the parent `propGrp2` whose
local transform is twice the identity, and every other local transform
is the identity — so `prop2`'s world transform differs from the matrix
`get_world_matrix` reads. -/
def sceneParentBug : Scene :=
  { nodes :=
      [⟨"hand1", "transform", none, [], [], []⟩,
       ⟨"prop1", "transform", none, [], [], []⟩,
       ⟨"hand2", "transform", none, [], [], []⟩,
       ⟨"propGrp2", "transform", none, [], [], []⟩,
       ⟨"prop2", "transform", some "propGrp2", [], [], []⟩],
    connections := [], keys := [],
    localTransform := fun n => if n = "propGrp2" then (2 : ℚ) • 1 else 1 }

/-! ### Basic scene lemmas -/

theorem objExists_iff (s : Scene) (n : String) :
    s.objExists n = true ↔ ∃ nd ∈ s.nodes, nd.name = n := by
  simp [Scene.objExists, Scene.findNode, List.find?_isSome]

theorem findNode_eq_none_of_not_exists {s : Scene} {n : String}
    (h : s.objExists n = false) : s.findNode n = none := by
  cases hf : s.findNode n with
  | none => rfl
  | some nd => simp [Scene.objExists, hf] at h

theorem objExists_deleteNode_self (s : Scene) (n : String) :
    (s.deleteNode n).objExists n = false := by
  have hnone : (s.deleteNode n).findNode n = none := by
    simp only [Scene.findNode, Scene.deleteNode]
    rw [List.find?_eq_none]
    intro nd hnd
    have h2 := (List.mem_filter.mp hnd).2
    simp only [decide_eq_true_eq] at h2 ⊢
    simpa using h2
  simp [Scene.objExists, hnone]

theorem readRef_of_not_exists {s : Scene} {n : String}
    (h : s.objExists n = false) (attr : String) : readRef s n attr = none := by
  have hf := findNode_eq_none_of_not_exists h
  simp [readRef, Scene.hasAttr, hf]

theorem get_constraint_data_of_not_exists {s : Scene} {n : String}
    (h : s.objExists n = false) :
    get_constraint_data s n =
      { network_node := n, display_name := "", source_ref := none,
        source_driven := none, target_ref := none, target_driven := none,
        mult_matrix := none, decompose_matrix := none } := by
  have hf := findNode_eq_none_of_not_exists h
  simp [get_constraint_data, readRef, Scene.hasAttr, hf]

theorem delete_constraint_of_not_exists {s : Scene} {n : String}
    (h : s.objExists n = false) : delete_constraint s n = s := by
  rw [delete_constraint, get_constraint_data_of_not_exists h]
  simp [h]

theorem objExists_guardDelete (s2 : Scene) (n : String) :
    (if s2.objExists n then s2.deleteNode n else s2).objExists n = false := by
  cases h : s2.objExists n <;> simp [h, objExists_deleteNode_self]

theorem objExists_delete_constraint (s : Scene) (n : String) :
    (delete_constraint s n).objExists n = false := by
  simp only [delete_constraint]
  exact objExists_guardDelete _ n

/-! ### Claim C4 -/

/-- C4: deleting the same record twice does not fail: after the first
`delete_constraint` the record node is gone, and on a record that does
not exist `delete_constraint` is the identity — every removal inside it
is independently guarded by an existence check, so the second call
performs no host operation at all. -/
theorem c4_delete_idempotent (s : Scene) (network_node : String) :
    delete_constraint (delete_constraint s network_node) network_node
        = delete_constraint s network_node ∧
    (s.objExists network_node = false → delete_constraint s network_node = s) := by
  exact ⟨delete_constraint_of_not_exists (objExists_delete_constraint s network_node),
    fun h => delete_constraint_of_not_exists h⟩

/-- C4 witness: double delete on a concrete one-record scene, and delete
of an absent record on the empty scene. -/
theorem c4_witness :
    delete_constraint (delete_constraint sceneExample "relMtxConstraint_data1")
        "relMtxConstraint_data1"
      = delete_constraint sceneExample "relMtxConstraint_data1" ∧
    delete_constraint sceneEmpty "ghost" = sceneEmpty :=
  ⟨(c4_delete_idempotent sceneExample "relMtxConstraint_data1").1,
   (c4_delete_idempotent sceneEmpty "ghost").2 (by decide)⟩

/-! ### Shape of the scene after `create_constraint_network_node` -/

theorem map_update_fresh (l : List Node) (net : String)
    (h : ∀ nd ∈ l, nd.name ≠ net) (f : Node → Node) :
    l.map (fun nd => if nd.name = net then f nd else nd) = l := by
  induction l with
  | nil => rfl
  | cons hd tl ih =>
    simp only [List.map_cons]
    rw [if_neg (h hd (by simp)), ih (fun nd hnd => h nd (by simp [hnd]))]

theorem not_named_of_not_exists {s : Scene} {net : String}
    (hfresh : s.objExists net = false) : ∀ nd ∈ s.nodes, nd.name ≠ net := by
  intro nd hnd heq
  have : s.objExists net = true := (objExists_iff s net).mpr ⟨nd, hnd, heq⟩
  rw [hfresh] at this
  exact Bool.false_ne_true this

theorem create_network_shape (s : Scene) (net a b c d m n : String)
    (hfresh : s.objExists net = false) :
    (create_constraint_network_node s net a b c d m n).2.nodes
        = recordNode net b d :: s.nodes ∧
    (create_constraint_network_node s net a b c d m n).2.connections
        = s.connections ++ recordConns net a b c d m n ∧
    (create_constraint_network_node s net a b c d m n).2.keys = s.keys ∧
    (create_constraint_network_node s net a b c d m n).2.localTransform = s.localTransform ∧
    (create_constraint_network_node s net a b c d m n).1 = net := by
  have h := not_named_of_not_exists hfresh
  refine ⟨?_, ?_, ?_, ?_, rfl⟩ <;>
    simp [create_constraint_network_node, Scene.createNode, Scene.addAttr,
      Scene.setBoolAttr, Scene.setStringAttr, Scene.updateNode,
      Scene.connectAttr, message_attr_names, map_update_fresh s.nodes net h,
      recordNode, recordConns]

theorem findNode_create_head (s : Scene) (net a b c d m n : String)
    (hfresh : s.objExists net = false) :
    (create_constraint_network_node s net a b c d m n).2.findNode net
      = some (recordNode net b d) := by
  obtain ⟨hnodes, -, -, -, -⟩ := create_network_shape s net a b c d m n hfresh
  rw [Scene.findNode, hnodes]
  simp [recordNode]

theorem filter_dst_eq_nil {s : Scene} {net : String}
    (hc : ∀ cn ∈ s.connections, cn.2.node ≠ net) (attr : String) :
    s.connections.filter (fun cn => decide (cn.2 = Plug.mk net attr)) = [] := by
  rw [List.filter_eq_nil_iff]
  intro cn hcm
  simp only [decide_eq_true_eq]
  intro h2
  exact hc cn hcm (by rw [h2])

theorem filter_src_eq_nil {s : Scene} {net : String}
    (hc : ∀ cn ∈ s.connections, cn.1.node ≠ net) (attr : String) :
    s.connections.filter (fun cn => decide (cn.1 = Plug.mk net attr)) = [] := by
  rw [List.filter_eq_nil_iff]
  intro cn hcm
  simp only [decide_eq_true_eq]
  intro h2
  exact hc cn hcm (by rw [h2])

/-! ### Claim C2 -/

/-- C2: metadata round-trip — reading the record created by
`create_constraint_network_node(a,b,c,d,m,n)` yields the four participant
fields `a,b,c,d` and the two computation-node fields `m,n` exactly.  The
freshness hypotheses say the host-allocated record name is unused, which
`cmds.createNode` guarantees. -/
theorem c2_roundtrip (s : Scene) (net a b c d m n : String)
    (hfresh : s.objExists net = false)
    (hc : ∀ cn ∈ s.connections, cn.1.node ≠ net ∧ cn.2.node ≠ net) :
    (create_constraint_network_node s net a b c d m n).1 = net ∧
    (get_constraint_data (create_constraint_network_node s net a b c d m n).2 net).source_ref
        = some a ∧
    (get_constraint_data (create_constraint_network_node s net a b c d m n).2 net).source_driven
        = some b ∧
    (get_constraint_data (create_constraint_network_node s net a b c d m n).2 net).target_ref
        = some c ∧
    (get_constraint_data (create_constraint_network_node s net a b c d m n).2 net).target_driven
        = some d ∧
    (get_constraint_data (create_constraint_network_node s net a b c d m n).2 net).mult_matrix
        = some m ∧
    (get_constraint_data (create_constraint_network_node s net a b c d m n).2 net).decompose_matrix
        = some n := by
  obtain ⟨hnodes, hconns, -, -, h1⟩ := create_network_shape s net a b c d m n hfresh
  have hfind := findNode_create_head s net a b c d m n hfresh
  have hnil1 := filter_dst_eq_nil (fun cn hcm => (hc cn hcm).2)
  have hnil2 := filter_src_eq_nil (fun cn hcm => (hc cn hcm).1)
  refine ⟨h1, ?_, ?_, ?_, ?_, ?_, ?_⟩ <;>
    simp [get_constraint_data, readRef, Scene.hasAttr, hfind, recordNode,
      message_attr_names, NETWORK_NODE_IDENTIFIER, Scene.listConnectedNodes,
      hconns, recordConns, List.filter_append, hnil1, hnil2]

/-- C2 witness: the concrete one-record scene round-trips its six
reference fields. -/
theorem c2_witness :
    (get_constraint_data sceneExample "relMtxConstraint_data1").source_ref = some "hand1" ∧
    (get_constraint_data sceneExample "relMtxConstraint_data1").target_driven = some "prop2" ∧
    (get_constraint_data sceneExample "relMtxConstraint_data1").decompose_matrix
        = some "relMtxConstraint_decomposeMatrix1" := by
  have h := c2_roundtrip sceneEmpty "relMtxConstraint_data1" "hand1" "prop1" "hand2" "prop2"
    "relMtxConstraint_multMatrix1" "relMtxConstraint_decomposeMatrix1"
    (by decide) (by decide)
  exact ⟨h.2.1, h.2.2.2.2.1, h.2.2.2.2.2.2⟩

/-! ### Claim C7 -/

/-- C7 counterexample: on the concretely created record for
`source_driven="prop1"`, `target_driven="prop2"`, the stored display
label is not the string `"prop1 -> prop2"` the claim states. -/
theorem c7_counterexample :
    (get_constraint_data sceneExample "relMtxConstraint_data1").display_name
      ≠ "prop1 -> prop2" := by decide

/-- C7 (amended): the stored display label equals
`source_driven ++ " â†’ " ++ target_driven` — the
separator the source file actually contains between the two names is the
three characters U+00E2, U+2020, U+2019 (a mojibake rendering of a
unicode arrow), not `" -> "`. -/
theorem c7_display_label (s : Scene) (net a b c d m n : String)
    (hfresh : s.objExists net = false) :
    (get_constraint_data (create_constraint_network_node s net a b c d m n).2 net).display_name
      = b ++ " â†’ " ++ d := by
  have hfind := findNode_create_head s net a b c d m n hfresh
  simp [get_constraint_data, Scene.hasAttr, Scene.getStringAttr, hfind,
    recordNode, message_attr_names, NETWORK_NODE_IDENTIFIER, mk_display_name]

/-- C7 witness: the concrete label for `prop1`/`prop2`. -/
theorem c7_witness :
    sceneEmpty.objExists "relMtxConstraint_data1" = false ∧
    (get_constraint_data sceneExample "relMtxConstraint_data1").display_name
      = "prop1" ++ " â†’ " ++ "prop2" :=
  ⟨by decide,
   c7_display_label sceneEmpty "relMtxConstraint_data1" "hand1" "prop1" "hand2" "prop2"
     "relMtxConstraint_multMatrix1" "relMtxConstraint_decomposeMatrix1" (by decide)⟩

/-! ### Claim C10 -/

theorem hasAttr_updateNode (s : Scene) (n : String) (f : Node → Node)
    (hname : ∀ nd, (f nd).name = nd.name) (hattrs : ∀ nd, (f nd).attrs = nd.attrs)
    (m a2 : String) : (s.updateNode n f).hasAttr m a2 = s.hasAttr m a2 := by
  have hg : ∀ nd : Node, (if nd.name = n then f nd else nd).name = nd.name := by
    intro nd
    by_cases h : nd.name = n <;> simp [h, hname]
  unfold Scene.hasAttr Scene.findNode Scene.updateNode
  simp only [List.find?_map]
  have hpe : ((fun nd : Node => decide (nd.name = m)) ∘
        fun nd => if nd.name = n then f nd else nd)
      = (fun nd : Node => decide (nd.name = m)) := by
    funext nd
    simp [Function.comp, hg nd]
  rw [hpe]
  cases hf : s.nodes.find? (fun nd => decide (nd.name = m)) with
  | none => simp
  | some nd =>
    by_cases h : nd.name = n <;> simp [h, hattrs]

theorem lsByType_updateNode (s : Scene) (n : String) (f : Node → Node)
    (hname : ∀ nd, (f nd).name = nd.name)
    (hty : ∀ nd, (f nd).nodeType = nd.nodeType) (ty : String) :
    (s.updateNode n f).lsByType ty = s.lsByType ty := by
  have hg : ∀ nd : Node, (if nd.name = n then f nd else nd).nodeType = nd.nodeType := by
    intro nd
    by_cases h : nd.name = n <;> simp [h, hty]
  have hgn : ∀ nd : Node, (if nd.name = n then f nd else nd).name = nd.name := by
    intro nd
    by_cases h : nd.name = n <;> simp [h, hname]
  unfold Scene.lsByType Scene.updateNode
  dsimp only
  induction s.nodes with
  | nil => rfl
  | cons hd tl ih =>
    by_cases h : hd.nodeType = ty <;>
      simp [List.filter_cons, hg hd, h, hgn hd, ih]

theorem find_updateNode_preserve (s : Scene) (n : String) (f : Node → Node)
    (hname : ∀ nd, (f nd).name = nd.name)
    (hty : ∀ nd, (f nd).nodeType = nd.nodeType)
    (hattrs : ∀ nd, (f nd).attrs = nd.attrs) :
    find_constraint_network_nodes (s.updateNode n f)
      = find_constraint_network_nodes s := by
  unfold find_constraint_network_nodes
  rw [lsByType_updateNode s n f hname hty]
  exact List.filter_congr
    (fun x _ => by rw [hasAttr_updateNode s n f hname hattrs])

theorem find_setBoolAttr (s : Scene) (n attr : String) (b : Bool) :
    find_constraint_network_nodes (s.setBoolAttr n attr b)
      = find_constraint_network_nodes s :=
  find_updateNode_preserve s n _ (fun _ => rfl) (fun _ => rfl) (fun _ => rfl)

/-- C10: registry discovery keys only on the presence of the marker
attribute, never on the boolean stored in it — setting the marker to any
value (in particular `false`) leaves the discovery result unchanged,
while creation adds the marker with value `true` and the created record
is discovered both before and after its marker is flipped to `false`. -/
theorem c10_discovery_ignores_marker_value :
    (∀ (s : Scene) (node : String) (b : Bool),
      find_constraint_network_nodes (s.setBoolAttr node NETWORK_NODE_IDENTIFIER b)
        = find_constraint_network_nodes s) ∧
    (∀ (s : Scene) (net a b c d m n : String), s.objExists net = false →
      net ∈ find_constraint_network_nodes
          (create_constraint_network_node s net a b c d m n).2 ∧
      (create_constraint_network_node s net a b c d m n).2.getBoolAttr net
          NETWORK_NODE_IDENTIFIER = some true ∧
      net ∈ find_constraint_network_nodes
        (((create_constraint_network_node s net a b c d m n).2).setBoolAttr net
          NETWORK_NODE_IDENTIFIER false)) := by
  constructor
  · intro s node b
    exact find_setBoolAttr s node NETWORK_NODE_IDENTIFIER b
  · intro s net a b c d m n hfresh
    obtain ⟨hnodes, -, -, -, -⟩ := create_network_shape s net a b c d m n hfresh
    have hfind := findNode_create_head s net a b c d m n hfresh
    have hmem : net ∈ find_constraint_network_nodes
        (create_constraint_network_node s net a b c d m n).2 := by
      unfold find_constraint_network_nodes Scene.lsByType
      rw [hnodes, List.filter_cons_of_pos (by simp [recordNode])]
      simp only [List.map_cons]
      rw [List.filter_cons_of_pos
        (by simp [Scene.hasAttr, hfind, recordNode, message_attr_names,
          NETWORK_NODE_IDENTIFIER])]
      exact List.mem_cons_self _ _
    refine ⟨hmem, ?_, ?_⟩
    · simp [Scene.getBoolAttr, hfind, recordNode, NETWORK_NODE_IDENTIFIER]
    · rw [find_setBoolAttr]
      exact hmem

/-- C10 witness: the concrete record stays discovered after its marker is
set to `false`. -/
theorem c10_witness :
    find_constraint_network_nodes
        (sceneExample.setBoolAttr "relMtxConstraint_data1" NETWORK_NODE_IDENTIFIER false)
      = find_constraint_network_nodes sceneExample ∧
    "relMtxConstraint_data1" ∈ find_constraint_network_nodes
        (sceneExample.setBoolAttr "relMtxConstraint_data1" NETWORK_NODE_IDENTIFIER false) :=
  ⟨c10_discovery_ignores_marker_value.1 sceneExample "relMtxConstraint_data1" false,
   (c10_discovery_ignores_marker_value.2 sceneEmpty "relMtxConstraint_data1"
     "hand1" "prop1" "hand2" "prop2" "relMtxConstraint_multMatrix1"
     "relMtxConstraint_decomposeMatrix1" (by decide)).2.2⟩

/-! ### Claim C3 -/

theorem filter_dst_deleted {s : Scene} {n o attr : String}
    (hw : ∀ cn ∈ s.connections,
      (cn.2 = Plug.mk n attr → cn.1.node = o) ∧ (cn.1 = Plug.mk n attr → cn.2.node = o)) :
    (s.deleteNode o).connections.filter (fun c => decide (c.2 = Plug.mk n attr)) = [] := by
  rw [List.filter_eq_nil_iff]
  intro c hc
  have hc2 := List.mem_filter.mp hc
  simp only [decide_eq_true_eq] at hc2 ⊢
  intro hP
  exact hc2.2.1 ((hw c hc2.1).1 hP)

theorem filter_src_deleted {s : Scene} {n o attr : String}
    (hw : ∀ cn ∈ s.connections,
      (cn.2 = Plug.mk n attr → cn.1.node = o) ∧ (cn.1 = Plug.mk n attr → cn.2.node = o)) :
    (s.deleteNode o).connections.filter (fun c => decide (c.1 = Plug.mk n attr)) = [] := by
  rw [List.filter_eq_nil_iff]
  intro c hc
  have hc2 := List.mem_filter.mp hc
  simp only [decide_eq_true_eq] at hc2 ⊢
  intro hP
  exact hc2.2.2 ((hw c hc2.1).2 hP)

/-- C3: `get_constraint_data` is a total projection of the scene — it is
a plain function, modelled over the always-succeeding host read
primitives — and it degrades instead of failing: when the record node
itself is gone every reference field reads back `none` (the model of
Python `None`), and when a referenced object is deleted externally the
corresponding reference field of a re-read reads back `none` and the
record is no longer complete (the incomplete state is represented in the
returned data, never raised). -/
theorem c3_read_degrades_incomplete :
    (∀ (s : Scene) (n : String), s.objExists n = false →
      get_constraint_data s n =
        { network_node := n, display_name := "", source_ref := none,
          source_driven := none, target_ref := none, target_driven := none,
          mult_matrix := none, decompose_matrix := none }) ∧
    (∀ (s : Scene) (n o attr : String), attr ∈ message_attr_names →
      (∀ cn ∈ s.connections,
        (cn.2 = Plug.mk n attr → cn.1.node = o) ∧
        (cn.1 = Plug.mk n attr → cn.2.node = o)) →
      readRef (s.deleteNode o) n attr = none) ∧
    (∀ (s : Scene) (n o : String),
      (∀ cn ∈ s.connections,
        (cn.2 = Plug.mk n "targetDriven" → cn.1.node = o) ∧
        (cn.1 = Plug.mk n "targetDriven" → cn.2.node = o)) →
      (get_constraint_data (s.deleteNode o) n).target_driven = none ∧
      (get_constraint_data (s.deleteNode o) n).isComplete = false) := by
  have key : ∀ (s : Scene) (n o attr : String),
      (∀ cn ∈ s.connections,
        (cn.2 = Plug.mk n attr → cn.1.node = o) ∧
        (cn.1 = Plug.mk n attr → cn.2.node = o)) →
      readRef (s.deleteNode o) n attr = none := by
    intro s n o attr hw
    cases hA : (s.deleteNode o).hasAttr n attr with
    | false => simp [readRef, hA]
    | true =>
      simp [readRef, hA, Scene.listConnectedNodes,
        filter_dst_deleted hw, filter_src_deleted hw]
  refine ⟨fun s n h => get_constraint_data_of_not_exists h,
    fun s n o attr _ hw => key s n o attr hw, fun s n o hw => ?_⟩
  have htd : readRef (s.deleteNode o) n "targetDriven" = none :=
    key s n o "targetDriven" hw
  constructor
  · simpa [get_constraint_data] using htd
  · simp [ConstraintData.isComplete, get_constraint_data, htd]

/-- C3 witness: reading a fully absent record, and re-reading the
concrete record after its target participant was deleted externally. -/
theorem c3_witness :
    get_constraint_data sceneEmpty "ghost" =
      { network_node := "ghost", display_name := "", source_ref := none,
        source_driven := none, target_ref := none, target_driven := none,
        mult_matrix := none, decompose_matrix := none } ∧
    (get_constraint_data (sceneExample.deleteNode "prop2")
        "relMtxConstraint_data1").target_driven = none ∧
    (get_constraint_data (sceneExample.deleteNode "prop2")
        "relMtxConstraint_data1").isComplete = false := by
  have h3 := c3_read_degrades_incomplete.2.2 sceneExample
    "relMtxConstraint_data1" "prop2" (by decide)
  exact ⟨c3_read_degrades_incomplete.1 sceneEmpty "ghost" (by decide), h3.1, h3.2⟩

/-! ### Claim C9 -/

/-- C9: for every body — whether it returns normally or raises — the
`finally` block of `viewport_off` leaves refresh unsuspended, the
timeslider visible and the main pane managed, restores parallel
evaluation whenever it was previously enabled, and passes the body's
outcome (value or re-raised exception) through unchanged. -/
theorem c9_viewport_restores (α : Type)
    (body : UIState → Except String α × UIState) (u : UIState) :
    (viewport_off_run body u).2.refreshSuspended = false ∧
    (viewport_off_run body u).2.timeSliderVisible = true ∧
    (viewport_off_run body u).2.mainPaneManaged = true ∧
    (u.evalManagerModes.contains "parallel" = true →
      (viewport_off_run body u).2.evalManagerModes = ["parallel"]) ∧
    (viewport_off_run body u).1 =
      (body { evalManagerModes :=
                if u.evalManagerModes.contains "parallel" then ["off"]
                else u.evalManagerModes,
              mainPaneManaged := false, refreshSuspended := true,
              timeSliderVisible := false }).1 := by
  unfold viewport_off_run UIState.setEvalMode
  cases hp : u.evalManagerModes.contains "parallel" <;> simp [hp]

/-- C9 witness: the raising body on a parallel-evaluation UI state still
ends restored, and the exception is passed through. -/
theorem c9_witness :
    (viewport_off_run bodyRaises uiBefore).2.refreshSuspended = false ∧
    (viewport_off_run bodyRaises uiBefore).2.timeSliderVisible = true ∧
    (viewport_off_run bodyRaises uiBefore).2.mainPaneManaged = true ∧
    (viewport_off_run bodyRaises uiBefore).2.evalManagerModes = ["parallel"] :=
  ⟨(c9_viewport_restores Unit bodyRaises uiBefore).1,
   (c9_viewport_restores Unit bodyRaises uiBefore).2.1,
   (c9_viewport_restores Unit bodyRaises uiBefore).2.2.1,
   (c9_viewport_restores Unit bodyRaises uiBefore).2.2.2.1 (by decide)⟩

/-! ### Claim C1 -/

theorem le_foldl_max (l : List ℚ) (i : ℚ) : i ≤ l.foldl max i := by
  induction l generalizing i with
  | nil => exact le_refl i
  | cons hd tl ih => exact le_trans (le_max_left i hd) (ih (max i hd))

theorem mem_le_foldl_max (l : List ℚ) (i : ℚ) : ∀ x ∈ l, x ≤ l.foldl max i := by
  induction l generalizing i with
  | nil => intro x hx; simp at hx
  | cons hd tl ih =>
    intro x hx
    rcases List.mem_cons.mp hx with h | h
    · subst h
      exact le_trans (le_max_right i x) (le_foldl_max tl (max i x))
    · exact ih (max i hd) x h

/-! ### Claim C6 -/

theorem parentOf_connectAttr (s : Scene) (x y : Plug) (n : String) :
    (s.connectAttr x y).parentOf n = s.parentOf n := rfl

theorem parentOf_createNode_ne (s : Scene) (ty nm n : String) (h : nm ≠ n) :
    (s.createNode ty nm).parentOf n = s.parentOf n := by
  simp [Scene.parentOf, Scene.findNode, Scene.createNode, List.find?_cons, h]

theorem create_network_conns (s : Scene) (net a b c d m n : String) :
    (create_constraint_network_node s net a b c d m n).2.connections
      = s.connections ++ recordConns net a b c d m n := by
  simp [create_constraint_network_node, Scene.createNode, Scene.addAttr,
    Scene.setBoolAttr, Scene.setStringAttr, Scene.updateNode, Scene.connectAttr,
    message_attr_names, recordConns]

/-- C6: the combiner is wired, in this fixed order, from
`source_driven.worldMatrix`, `source_ref.worldInverseMatrix`,
`target_ref.worldMatrix`, and — exactly when `target_driven` has a
parent — that parent's `worldInverseMatrix`; hence it has 4 wired matrix
inputs with a parent and 3 without.  The inequations say the three
host-allocated node names are distinct from each other and from the
participants, which `cmds.createNode` guarantees. -/
theorem c6_combiner_wiring (s : Scene) (mm dec net a b c d : String)
    (hfresh : ∀ cn ∈ s.connections, cn.2.node ≠ mm)
    (hdec : dec ≠ mm) (hnet : net ≠ mm) (hd : d ≠ mm) :
    wiredMatrixInputs (create_relative_matrix_constraint s mm dec net a b c d).2 mm
      = ([(⟨b, "worldMatrix[0]"⟩, ⟨mm, "matrixIn[0]"⟩),
          (⟨a, "worldInverseMatrix[0]"⟩, ⟨mm, "matrixIn[1]"⟩),
          (⟨c, "worldMatrix[0]"⟩, ⟨mm, "matrixIn[2]"⟩)]
         ++ (match s.parentOf d with
             | some p => [(⟨p, "worldInverseMatrix[0]"⟩, ⟨mm, "matrixIn[3]"⟩)]
             | none => [])) ∧
    (wiredMatrixInputs (create_relative_matrix_constraint s mm dec net a b c d).2 mm).length
      = (if (s.parentOf d).isSome then 4 else 3) := by
  have hmm : mm ≠ d := fun h => hd h.symm
  have hnil : ∀ p : Plug × Plug → Bool,
      (∀ cn : Plug × Plug, cn.2.node ≠ mm → p cn = false) →
      s.connections.filter p = [] := by
    intro p hp
    rw [List.filter_eq_nil_iff]
    intro cn hcn hpc
    rw [hp cn (hfresh cn hcn)] at hpc
    exact Bool.false_ne_true hpc
  have hnil2 : s.connections.filter
      (fun c => decide (c.2.node = mm) && pyStartsWith c.2.attr "matrixIn") = [] := by
    apply hnil
    intro cn hcn
    simp [hcn]
  cases hp : s.parentOf d with
  | some p =>
    simp only [create_relative_matrix_constraint, parentOf_connectAttr,
      parentOf_createNode_ne s "multMatrix" mm d hmm, hp]
    constructor <;>
    · simp [wiredMatrixInputs, create_network_conns, recordConns,
        Scene.connectAttr, Scene.createNode, List.filter_append, hnil2,
        hdec, hnet, hd, pyStartsWith]
      intro x y hxy hy
      exact absurd hy (hfresh (x, y) hxy)
  | none =>
    simp only [create_relative_matrix_constraint, parentOf_connectAttr,
      parentOf_createNode_ne s "multMatrix" mm d hmm, hp]
    constructor <;>
    · simp [wiredMatrixInputs, create_network_conns, recordConns,
        Scene.connectAttr, Scene.createNode, List.filter_append, hnil2,
        hdec, hnet, hd, pyStartsWith]
      intro x y hxy hy
      exact absurd hy (hfresh (x, y) hxy)

/-- C6 witness: the concrete builds on a parented and an unparented
target driven object. -/
theorem c6_witness :
    (wiredMatrixInputs
      (create_relative_matrix_constraint sceneVerify "mm1" "dcm1" "net1"
        "hand1" "prop1" "hand2" "prop2").2 "mm1").length = 4 ∧
    (wiredMatrixInputs
      (create_relative_matrix_constraint sceneVerifyNoParent "mm1" "dcm1" "net1"
        "hand1" "prop1" "hand2" "prop2").2 "mm1").length = 3 := by
  constructor
  · have h := (c6_combiner_wiring sceneVerify "mm1" "dcm1" "net1"
      "hand1" "prop1" "hand2" "prop2" (by decide) (by decide) (by decide) (by decide)).2
    rw [h]
    decide
  · have h := (c6_combiner_wiring sceneVerifyNoParent "mm1" "dcm1" "net1"
      "hand1" "prop1" "hand2" "prop2" (by decide) (by decide) (by decide) (by decide)).2
    rw [h]
    decide

/-! ### Claim C5 -/

theorem mem_frameList {f0 f1 f : Int} (h1 : f0 ≤ f) (h2 : f ≤ f1) :
    f ∈ frameList f0 f1 := by
  have hk : (f - f0).toNat ∈ List.range (f1 - f0 + 1).toNat :=
    List.mem_range.mpr (by omega)
  have hf : f0 + (((f - f0).toNat : Nat) : Int) = f := by omega
  rw [frameList, ← hf]
  exact List.mem_map_of_mem (fun k : Nat => f0 + (k : Int)) hk

theorem delete_constraint_keys (s : Scene) (n : String) :
    (delete_constraint s n).keys = s.keys := by
  simp only [delete_constraint]
  repeat' split
  all_goals rfl

theorem objExists_of_mem_find {s : Scene} {n : String}
    (h : n ∈ find_constraint_network_nodes s) : s.objExists n = true := by
  unfold find_constraint_network_nodes Scene.lsByType at h
  have h1 := (List.mem_filter.mp h).1
  obtain ⟨nd, hnd, hname⟩ := List.mem_map.mp h1
  exact (objExists_iff s n).mpr ⟨nd, (List.mem_filter.mp hnd).1, hname⟩

/-- C5: `_on_bake_single` — when the stored target no longer resolves
(Python-falsy field or non-existent object) the whole operation is
rejected with the scene untouched; otherwise the target's six
translate/rotate channels receive a key at every integer frame of the
inclusive range, the record is deleted afterwards, and the record id no
longer appears in the registry scan. -/
theorem c5_bake_single (s : Scene) (network_node : String) (f0 f1 : Int)
    (hle : f0 ≤ f1) :
    (∀ t, (get_constraint_data s network_node).target_driven = some t → t ≠ "" →
      s.objExists t = true →
      (on_bake_single s network_node f0 f1).2 = true ∧
      (∀ a ∈ bake_attrs, ∀ f : Int, f0 ≤ f → f ≤ f1 →
        (on_bake_single s network_node f0 f1).1.hasKey t a f = true) ∧
      network_node ∉ find_constraint_network_nodes
        (on_bake_single s network_node f0 f1).1) ∧
    (((get_constraint_data s network_node).target_driven = none ∨
      (∃ t, (get_constraint_data s network_node).target_driven = some t ∧
        (t = "" ∨ s.objExists t = false))) →
      on_bake_single s network_node f0 f1 = (s, false)) := by
  constructor
  · intro t htd hne hex
    have hob : on_bake_single s network_node f0 f1
        = (delete_constraint (bake_with_viewport_off s t f0 f1) network_node, true) := by
      simp [on_bake_single, htd, hne, hex]
    refine ⟨by rw [hob], ?_, ?_⟩
    · intro a ha f hf1 hf2
      rw [hob]
      simp only [Scene.hasKey]
      rw [delete_constraint_keys]
      simp only [bake_with_viewport_off, Scene.bakeResults]
      apply List.elem_iff.mpr
      apply List.mem_append_right
      simp only [List.mem_flatMap]
      exact ⟨a, ha, List.mem_map.mpr ⟨f, mem_frameList hf1 hf2, rfl⟩⟩
    · rw [hob]
      intro hmem
      have hex2 := objExists_of_mem_find hmem
      rw [objExists_delete_constraint] at hex2
      exact Bool.false_ne_true hex2
  · intro hrej
    rcases hrej with hnone | ⟨t, htd, hcase⟩
    · simp [on_bake_single, hnone]
    · rcases hcase with he | hex
      · simp [on_bake_single, htd, he]
      · by_cases hte : t = "" <;> simp [on_bake_single, htd, hte, hex]

/-- C5 witness: a concrete bake over frames 1..3 writes the keys and
drops the record from the registry, and a record whose target object is
gone is rejected with the scene unchanged. -/
theorem c5_witness :
    (on_bake_single sceneBake "net1" 1 3).2 = true ∧
    (on_bake_single sceneBake "net1" 1 3).1.hasKey "prop2" "tx" 2 = true ∧
    "net1" ∉ find_constraint_network_nodes (on_bake_single sceneBake "net1" 1 3).1 ∧
    on_bake_single sceneExample "relMtxConstraint_data1" 1 3 = (sceneExample, false) := by
  have h := (c5_bake_single sceneBake "net1" 1 3 (by decide)).1 "prop2"
    (by decide) (by decide) (by decide)
  have h2 := (c5_bake_single sceneExample "relMtxConstraint_data1" 1 3 (by decide)).2
    (Or.inr ⟨"prop2", by decide, Or.inr (by decide)⟩)
  exact ⟨h.1, h.2.1 "tx" (by decide) 2 (by decide) (by decide), h.2.2, h2⟩

/-! ### Claim C8 -/

theorem filter_filter_of_imp {α : Type} (l : List α) (p q : α → Bool)
    (h : ∀ x, p x = true → q x = true) :
    (l.filter q).filter p = l.filter p := by
  rw [List.filter_filter]
  apply List.filter_congr
  intro x _
  cases hpx : p x
  · simp
  · simp [h x hpx]

theorem filter_dst_disconnect (x : Scene) (sp dp : Plug) {P : Plug} (hne : P ≠ dp) :
    (x.disconnectAttr sp dp).connections.filter (fun c => decide (c.2 = P))
      = x.connections.filter (fun c => decide (c.2 = P)) := by
  rw [Scene.disconnectAttr]
  apply filter_filter_of_imp
  intro c hc
  simp only [decide_eq_true_eq] at hc ⊢
  intro hand
  exact hne (by rw [← hc]; exact hand.2)

theorem filter_src_disconnect (x : Scene) (sp dp : Plug) {P : Plug} (hne : P ≠ sp) :
    (x.disconnectAttr sp dp).connections.filter (fun c => decide (c.1 = P))
      = x.connections.filter (fun c => decide (c.1 = P)) := by
  rw [Scene.disconnectAttr]
  apply filter_filter_of_imp
  intro c hc
  simp only [decide_eq_true_eq] at hc ⊢
  intro hand
  exact hne (by rw [← hc]; exact hand.1)

theorem objExists_of_nodeTypeOf {s : Scene} {n ty : String}
    (h : s.nodeTypeOf n = ty) (hne : ty ≠ "") : s.objExists n = true := by
  cases hf : s.findNode n with
  | none =>
    rw [Scene.nodeTypeOf, hf] at h
    exact absurd h.symm hne
  | some nd => simp [Scene.objExists, hf]

theorem objExists_deleteNode_mono {s : Scene} {n : String} (m : String)
    (h : s.objExists n = false) : (s.deleteNode m).objExists n = false := by
  cases hf : (s.deleteNode m).findNode n with
  | none => simp [Scene.objExists, hf]
  | some nd =>
    exfalso
    rw [Scene.findNode, Scene.deleteNode] at hf
    dsimp only at hf
    have hp0 := List.find?_some hf
    have hp : nd.name = n := by simpa using hp0
    have hm := (List.mem_filter.mp (List.mem_of_find?_eq_some hf)).1
    rw [(objExists_iff s n).mpr ⟨nd, hm, hp⟩] at h
    simp at h

theorem find?_name_of_nodup {l : List Node} (hnd : (l.map Node.name).Nodup)
    {nd : Node} (h : nd ∈ l) :
    l.find? (fun x => decide (x.name = nd.name)) = some nd := by
  induction l with
  | nil => cases h
  | cons hd tl ih =>
    rw [List.map_cons, List.nodup_cons] at hnd
    rcases List.mem_cons.mp h with he | hm
    · subst he
      rw [List.find?_cons_of_pos _ (by simp)]
    · have hne : hd.name ≠ nd.name := by
        intro heq
        exact hnd.1 (heq ▸ List.mem_map_of_mem Node.name hm)
      rw [List.find?_cons_of_neg _ (by simp [hne])]
      exact ih hnd.2 hm

theorem findNode_of_nodup {s : Scene} (hnd : (s.nodes.map Node.name).Nodup)
    {nd : Node} (h : nd ∈ s.nodes) : s.findNode nd.name = some nd :=
  find?_name_of_nodup hnd h

theorem foldl_fixed {α β : Type} (f : β → α → β) (b : β) (l : List α)
    (h : ∀ x ∈ l, f b x = b) : l.foldl f b = b := by
  induction l with
  | nil => rfl
  | cons hd tl ih =>
    rw [List.foldl_cons, h hd (by simp)]
    exact ih (fun x hx => h x (by simp [hx]))

theorem contains_eq_false {α : Type} [BEq α] [LawfulBEq α] {l : List α} {a : α}
    (h : a ∉ l) : l.contains a = false := by
  cases hc : l.contains a
  · rfl
  · exact absurd (List.elem_iff.mp hc) h

theorem anim_guard_decompose : pyStartsWith "decomposeMatrix" "animCurve" = false := by
  decide

theorem sot_decompose : scene_object_types.contains "decomposeMatrix" = false := by
  decide

theorem processPair_decompose (keep : Bool) (x : Scene) (dels : List String)
    (dp sp : Plug) (mc : String)
    (hty : x.nodeTypeOf sp.node = "decomposeMatrix")
    (hlc : (x.disconnectAttr sp dp).listConnectedNodes (Plug.mk sp.node "inputMatrix")
        = [mc]) :
    processPair keep (x, dels) (dp, sp)
      = (x.disconnectAttr sp dp, addToSet (addToSet dels sp.node) mc) := by
  simp only [processPair, hty, anim_guard_decompose, Bool.and_false, sot_decompose, hlc]
  simp

/-- C8: on a target driven by one offset-applier (`decomposeMatrix`) fed
by one offset-combiner (`multMatrix`), `remove_connections_from_target`
deletes both nodes, leaves zero incoming connections on the target's
translate/rotate attributes and their six sub-channels, and never
deletes a node of a plain scene-object type; and with `keep_anim_curves`
set, a purely animation-curve-driven target is left entirely untouched
(curves spared from disconnection and deletion). -/
theorem c8_disconnect_cleanup (s : Scene) (t ad cb : String) (keep : Bool)
    (hnd : (s.nodes.map Node.name).Nodup)
    (htyAd : s.nodeTypeOf ad = "decomposeMatrix")
    (htyCb : s.nodeTypeOf cb = "multMatrix")
    (hT : s.connections.filter (fun c => decide (c.2 = Plug.mk t "translate"))
        = [(Plug.mk ad "outputTranslate", Plug.mk t "translate")])
    (hR : s.connections.filter (fun c => decide (c.2 = Plug.mk t "rotate"))
        = [(Plug.mk ad "outputRotate", Plug.mk t "rotate")])
    (hSub : ∀ a ∈ (["tx", "ty", "tz", "rx", "ry", "rz"] : List String),
        s.connections.filter (fun c => decide (c.2 = Plug.mk t a)) = [])
    (hIM : s.connections.filter (fun c => decide (c.2 = Plug.mk ad "inputMatrix"))
        = [(Plug.mk cb "matrixSum", Plug.mk ad "inputMatrix")])
    (hIMs : s.connections.filter (fun c => decide (c.1 = Plug.mk ad "inputMatrix")) = []) :
    ((remove_connections_from_target s t keep).objExists ad = false ∧
     (remove_connections_from_target s t keep).objExists cb = false ∧
     (∀ a ∈ target_attrs,
       (remove_connections_from_target s t keep).listIncomingPairs (Plug.mk t a) = []) ∧
     (∀ nd ∈ s.nodes, nd.nodeType ∈ scene_object_types →
       (remove_connections_from_target s t keep).objExists nd.name = true)) ∧
    (∀ (s2 : Scene) (t2 : String),
      (∀ a ∈ target_attrs, ∀ cn ∈ s2.connections, cn.2 = Plug.mk t2 a →
        pyStartsWith (s2.nodeTypeOf cn.1.node) "animCurve" = true) →
      remove_connections_from_target s2 t2 true = s2) := by
  constructor
  · have hadcb : ad ≠ cb := by
      intro h
      rw [h, htyCb] at htyAd
      exact absurd htyAd (by decide)
    have hexAd : s.objExists ad = true := objExists_of_nodeTypeOf htyAd (by decide)
    have ha1 : addToSet ([] : List String) ad = [ad] := by
      unfold addToSet
      rfl
    have ha2 : addToSet [ad] cb = [ad, cb] := by
      have hc : ([ad] : List String).contains cb = false :=
        contains_eq_false (by simp [Ne.symm hadcb])
      unfold addToSet
      rw [hc]
      rfl
    have ha3 : addToSet [ad, cb] ad = [ad, cb] := by
      have hc : ([ad, cb] : List String).contains ad = true :=
        List.elem_iff.mpr (by simp)
      unfold addToSet
      rw [hc]
      rfl
    have ha4 : addToSet [ad, cb] cb = [ad, cb] := by
      have hc : ([ad, cb] : List String).contains cb = true :=
        List.elem_iff.mpr (by simp)
      unfold addToSet
      rw [hc]
      rfl
    have hlc1 : (s.disconnectAttr (Plug.mk ad "outputTranslate") (Plug.mk t "translate")).listConnectedNodes (Plug.mk ad "inputMatrix") = [cb] := by
      rw [Scene.listConnectedNodes,
        filter_dst_disconnect s _ _ (by simp), hIM,
        filter_src_disconnect s _ _ (by simp), hIMs]
      rfl
    have hlc2 : ((s.disconnectAttr (Plug.mk ad "outputTranslate") (Plug.mk t "translate")).disconnectAttr (Plug.mk ad "outputRotate") (Plug.mk t "rotate")).listConnectedNodes (Plug.mk ad "inputMatrix") = [cb] := by
      rw [Scene.listConnectedNodes,
        filter_dst_disconnect _ _ _ (by simp),
        filter_dst_disconnect s _ _ (by simp), hIM,
        filter_src_disconnect _ _ _ (by simp),
        filter_src_disconnect s _ _ (by simp), hIMs]
      rfl
    have e1 : processAttr t keep (s, []) "translate" = ((s.disconnectAttr (Plug.mk ad "outputTranslate") (Plug.mk t "translate")), [ad, cb]) := by
      simp only [processAttr]
      rw [show (s, ([] : List String)).1.listIncomingPairs (Plug.mk t "translate")
          = [(Plug.mk t "translate", Plug.mk ad "outputTranslate")] from by
        rw [Scene.listIncomingPairs, hT]
        rfl]
      rw [List.foldl_cons, List.foldl_nil,
        processPair_decompose keep s [] (Plug.mk t "translate")
          (Plug.mk ad "outputTranslate") cb htyAd hlc1]
      dsimp only
      rw [ha1, ha2]
    have e2 : processAttr t keep ((s.disconnectAttr (Plug.mk ad "outputTranslate") (Plug.mk t "translate")), [ad, cb]) "rotate" = (((s.disconnectAttr (Plug.mk ad "outputTranslate") (Plug.mk t "translate")).disconnectAttr (Plug.mk ad "outputRotate") (Plug.mk t "rotate")), [ad, cb]) := by
      simp only [processAttr]
      rw [show ((s.disconnectAttr (Plug.mk ad "outputTranslate") (Plug.mk t "translate")), [ad, cb]).1.listIncomingPairs (Plug.mk t "rotate")
          = [(Plug.mk t "rotate", Plug.mk ad "outputRotate")] from by
        rw [Scene.listIncomingPairs, filter_dst_disconnect s _ _ (by simp), hR]
        rfl]
      rw [List.foldl_cons, List.foldl_nil,
        processPair_decompose keep (s.disconnectAttr (Plug.mk ad "outputTranslate") (Plug.mk t "translate")) [ad, cb] (Plug.mk t "rotate")
          (Plug.mk ad "outputRotate") cb htyAd hlc2]
      dsimp only
      rw [ha3, ha4]
    have e3 : ∀ a : String, a ≠ "translate" → a ≠ "rotate" →
        s.connections.filter (fun c => decide (c.2 = Plug.mk t a)) = [] →
        processAttr t keep (((s.disconnectAttr (Plug.mk ad "outputTranslate") (Plug.mk t "translate")).disconnectAttr (Plug.mk ad "outputRotate") (Plug.mk t "rotate")), [ad, cb]) a = (((s.disconnectAttr (Plug.mk ad "outputTranslate") (Plug.mk t "translate")).disconnectAttr (Plug.mk ad "outputRotate") (Plug.mk t "rotate")), [ad, cb]) := by
      intro a hna1 hna2 hnil
      simp only [processAttr]
      rw [show (((s.disconnectAttr (Plug.mk ad "outputTranslate") (Plug.mk t "translate")).disconnectAttr (Plug.mk ad "outputRotate") (Plug.mk t "rotate")), [ad, cb]).1.listIncomingPairs (Plug.mk t a) = [] from by
        rw [Scene.listIncomingPairs,
          filter_dst_disconnect _ _ _ (by simp [hna2]),
          filter_dst_disconnect s _ _ (by simp [hna1]), hnil]
        rfl]
      rfl
    have hfold : target_attrs.foldl (processAttr t keep) (s, []) = (((s.disconnectAttr (Plug.mk ad "outputTranslate") (Plug.mk t "translate")).disconnectAttr (Plug.mk ad "outputRotate") (Plug.mk t "rotate")), [ad, cb]) := by
      show List.foldl (processAttr t keep) (s, [])
        ["translate", "rotate", "tx", "ty", "tz", "rx", "ry", "rz"] = _
      rw [List.foldl_cons, e1, List.foldl_cons, e2,
        List.foldl_cons, e3 "tx" (by decide) (by decide) (hSub "tx" (by simp)),
        List.foldl_cons, e3 "ty" (by decide) (by decide) (hSub "ty" (by simp)),
        List.foldl_cons, e3 "tz" (by decide) (by decide) (hSub "tz" (by simp)),
        List.foldl_cons, e3 "rx" (by decide) (by decide) (hSub "rx" (by simp)),
        List.foldl_cons, e3 "ry" (by decide) (by decide) (hSub "ry" (by simp)),
        List.foldl_cons, e3 "rz" (by decide) (by decide) (hSub "rz" (by simp)),
        List.foldl_nil]
    have hcbex : (((s.disconnectAttr (Plug.mk ad "outputTranslate") (Plug.mk t "translate")).disconnectAttr (Plug.mk ad "outputRotate") (Plug.mk t "rotate")).deleteNode ad).objExists cb = true := by
      obtain ⟨ndcb, hfcb⟩ : ∃ nd, s.findNode cb = some nd := by
        cases hf : s.findNode cb with
        | none =>
          rw [Scene.nodeTypeOf, hf] at htyCb
          exact absurd htyCb (by decide)
        | some nd => exact ⟨nd, rfl⟩
      have hnamecb : ndcb.name = cb := by
        have hx := List.find?_some hfcb
        simpa using hx
      have hmemcb : ndcb ∈ s.nodes := List.mem_of_find?_eq_some hfcb
      apply (objExists_iff _ cb).mpr
      refine ⟨ndcb, ?_, hnamecb⟩
      apply List.mem_filter.mpr
      exact ⟨hmemcb, by simp [hnamecb, Ne.symm hadcb]⟩
    have hrm : remove_connections_from_target s t keep
        = (((s.disconnectAttr (Plug.mk ad "outputTranslate") (Plug.mk t "translate")).disconnectAttr (Plug.mk ad "outputRotate") (Plug.mk t "rotate")).deleteNode ad).deleteNode cb := by
      simp only [remove_connections_from_target]
      rw [hfold]
      show List.foldl _ _ [ad, cb] = _
      rw [List.foldl_cons]
      show List.foldl _ (if ((s.disconnectAttr (Plug.mk ad "outputTranslate") (Plug.mk t "translate")).disconnectAttr (Plug.mk ad "outputRotate") (Plug.mk t "rotate")).objExists ad = true then ((s.disconnectAttr (Plug.mk ad "outputTranslate") (Plug.mk t "translate")).disconnectAttr (Plug.mk ad "outputRotate") (Plug.mk t "rotate")).deleteNode ad else ((s.disconnectAttr (Plug.mk ad "outputTranslate") (Plug.mk t "translate")).disconnectAttr (Plug.mk ad "outputRotate") (Plug.mk t "rotate"))) _ = _
      rw [if_pos (show ((s.disconnectAttr (Plug.mk ad "outputTranslate") (Plug.mk t "translate")).disconnectAttr (Plug.mk ad "outputRotate") (Plug.mk t "rotate")).objExists ad = true from hexAd), List.foldl_cons]
      show List.foldl _
        (if (((s.disconnectAttr (Plug.mk ad "outputTranslate") (Plug.mk t "translate")).disconnectAttr (Plug.mk ad "outputRotate") (Plug.mk t "rotate")).deleteNode ad).objExists cb = true
          then (((s.disconnectAttr (Plug.mk ad "outputTranslate") (Plug.mk t "translate")).disconnectAttr (Plug.mk ad "outputRotate") (Plug.mk t "rotate")).deleteNode ad).deleteNode cb else ((s.disconnectAttr (Plug.mk ad "outputTranslate") (Plug.mk t "translate")).disconnectAttr (Plug.mk ad "outputRotate") (Plug.mk t "rotate")).deleteNode ad) _ = _
      rw [if_pos hcbex, List.foldl_nil]
    refine ⟨?_, ?_, ?_, ?_⟩
    · rw [hrm]
      exact objExists_deleteNode_mono cb (objExists_deleteNode_self ((s.disconnectAttr (Plug.mk ad "outputTranslate") (Plug.mk t "translate")).disconnectAttr (Plug.mk ad "outputRotate") (Plug.mk t "rotate")) ad)
    · rw [hrm]
      exact objExists_deleteNode_self _ cb
    · intro a ha
      rw [hrm, Scene.listIncomingPairs]
      have hfil : ((((s.disconnectAttr (Plug.mk ad "outputTranslate") (Plug.mk t "translate")).disconnectAttr (Plug.mk ad "outputRotate") (Plug.mk t "rotate")).deleteNode ad).deleteNode cb).connections.filter
          (fun c => decide (c.2 = Plug.mk t a)) = [] := by
        rw [List.filter_eq_nil_iff]
        intro c hc
        obtain ⟨hc2, hq2⟩ := List.mem_filter.mp hc
        obtain ⟨hc3, hq1⟩ := List.mem_filter.mp hc2
        obtain ⟨hc4, hq0⟩ := List.mem_filter.mp hc3
        have hcs : c ∈ s.connections := (List.mem_filter.mp hc4).1
        simp only [decide_eq_true_eq] at hq1
        simp only [decide_eq_true_eq]
        intro hdst
        have hsub_case : ∀ a2 : String,
            a2 ∈ (["tx", "ty", "tz", "rx", "ry", "rz"] : List String) →
            c.2 = Plug.mk t a2 → False := by
          intro a2 ha2 hdst2
          have hmemS : c ∈ s.connections.filter
              (fun cc => decide (cc.2 = Plug.mk t a2)) :=
            List.mem_filter.mpr ⟨hcs, by simp [hdst2]⟩
          rw [hSub a2 ha2] at hmemS
          exact absurd hmemS (List.not_mem_nil c)
        have hA : a = "translate" ∨ a = "rotate" ∨ a = "tx" ∨ a = "ty" ∨
            a = "tz" ∨ a = "rx" ∨ a = "ry" ∨ a = "rz" := by
          simpa [target_attrs] using ha
        rcases hA with h | h | h | h | h | h | h | h
        · subst h
          have hmemT : c ∈ s.connections.filter
              (fun cc => decide (cc.2 = Plug.mk t "translate")) :=
            List.mem_filter.mpr ⟨hcs, by simp [hdst]⟩
          rw [hT] at hmemT
          have hce := List.mem_singleton.mp hmemT
          apply hq1.1
          rw [hce]
        · subst h
          have hmemT : c ∈ s.connections.filter
              (fun cc => decide (cc.2 = Plug.mk t "rotate")) :=
            List.mem_filter.mpr ⟨hcs, by simp [hdst]⟩
          rw [hR] at hmemT
          have hce := List.mem_singleton.mp hmemT
          apply hq1.1
          rw [hce]
        · subst h
          exact hsub_case "tx" (by simp) hdst
        · subst h
          exact hsub_case "ty" (by simp) hdst
        · subst h
          exact hsub_case "tz" (by simp) hdst
        · subst h
          exact hsub_case "rx" (by simp) hdst
        · subst h
          exact hsub_case "ry" (by simp) hdst
        · subst h
          exact hsub_case "rz" (by simp) hdst
      rw [hfil]
      rfl
    · intro nd hmem hty
      rw [hrm]
      have hne1 : nd.name ≠ ad := by
        intro he
        have hfind := findNode_of_nodup hnd hmem
        rw [he] at hfind
        have h6 : s.nodeTypeOf ad = nd.nodeType := by rw [Scene.nodeTypeOf, hfind]
        rw [htyAd] at h6
        rw [← h6] at hty
        exact absurd hty (by decide)
      have hne2 : nd.name ≠ cb := by
        intro he
        have hfind := findNode_of_nodup hnd hmem
        rw [he] at hfind
        have h6 : s.nodeTypeOf cb = nd.nodeType := by rw [Scene.nodeTypeOf, hfind]
        rw [htyCb] at h6
        rw [← h6] at hty
        exact absurd hty (by decide)
      apply (objExists_iff _ nd.name).mpr
      refine ⟨nd, ?_, rfl⟩
      apply List.mem_filter.mpr
      refine ⟨List.mem_filter.mpr ⟨hmem, by simp [hne1]⟩, by simp [hne2]⟩
  · intro s2 t2 hAnim
    have hfoldB : target_attrs.foldl (processAttr t2 true) (s2, []) = (s2, []) := by
      apply foldl_fixed
      intro attr hattr
      simp only [processAttr]
      apply foldl_fixed
      intro pr hpr
      rw [Scene.listIncomingPairs] at hpr
      obtain ⟨c, hcf, hceq⟩ := List.mem_map.mp hpr
      subst hceq
      obtain ⟨hcm, hcd⟩ := List.mem_filter.mp hcf
      have hdst : c.2 = Plug.mk t2 attr := by simpa using hcd
      have hguard := hAnim attr hattr c hcm hdst
      simp only [processPair]
      rw [hguard]
      simp
    simp only [remove_connections_from_target]
    rw [hfoldB]
    rfl

/-- C8 witness: the concrete applier/combiner pair is removed, the
target's translate channel is left with no incoming connection, the
plain joint survives, and the post-bake scene with `keep_anim_curves`
is untouched. -/
theorem c8_witness :
    (remove_connections_from_target sceneDriven "prop2" false).objExists "dcm1" = false ∧
    (remove_connections_from_target sceneDriven "prop2" false).objExists "mm1" = false ∧
    (remove_connections_from_target sceneDriven "prop2" false).listIncomingPairs
        (Plug.mk "prop2" "translate") = [] ∧
    (remove_connections_from_target sceneDriven "prop2" false).objExists "hand2" = true ∧
    remove_connections_from_target sceneBaked "prop2" true = sceneBaked := by
  have h := c8_disconnect_cleanup sceneDriven "prop2" "dcm1" "mm1" false
    (by decide) (by decide) (by decide) (by decide) (by decide)
    (by decide) (by decide) (by decide)
  refine ⟨h.1.1, h.1.2.1, h.1.2.2.1 "translate" (by simp [target_attrs]), ?_, ?_⟩
  · exact h.1.2.2.2 ⟨"hand2", "joint", none, [], [], []⟩ (by decide) (by decide)
  · exact h.2 sceneBaked "prop2" (by decide)

/-! ### Claim C1 -/

theorem worldMatrixAux_succ (s : Scene) (fuel : Nat) (n : String) :
    worldMatrixAux s (fuel + 1) n
      = match s.findNode n with
        | none => 1
        | some nd =>
          match nd.parent with
          | none => s.localTransform n
          | some p => s.localTransform n * worldMatrixAux s fuel p := rfl

theorem max_abs_diff_self (A : Mat4) : max_abs_diff A A = 0 := by
  rw [max_abs_diff]
  apply foldl_fixed
  intro x _
  simp

theorem le_max_abs_diff (A B : Mat4) (i j : Fin 4) :
    |A i j - B i j| ≤ max_abs_diff A B := by
  have hfold : max_abs_diff A B
      = ((matrix_index_pairs.map (fun ij => |A ij.1 ij.2 - B ij.1 ij.2|)).foldl max 0) := by
    rw [max_abs_diff, List.foldl_map]
  rw [hfold]
  apply mem_le_foldl_max
  exact List.mem_map.mpr ⟨(i, j), by simp [matrix_index_pairs], rfl⟩

/-- C1: the claim fails on the code, and the code is the slip.  The
helper the source names `get_world_matrix` reads
`MFnTransform.transformation().asMatrix()`, the local object-to-parent
matrix, so `_verify_constraint` compares local-space offsets.  On
`sceneParentBug` — four existing participants, `prop2` under a parent
whose transform is twice the identity — the code passes with a zero
difference, yet the matrix it read for `prop2` is not `prop2`'s world
transform, and the two world-space Relative Offsets of the spec differ
element-wise by 1, far above the 0.001 tolerance: under the claimed
world-transform reading, verification must fail here. -/
theorem c1_local_read_bug :
    (verify_constraint sceneParentBug "hand1" "prop1" "hand2" "prop2" (1/1000)).1 = true ∧
    (verify_constraint sceneParentBug "hand1" "prop1" "hand2" "prop2" (1/1000)).2 = 0 ∧
    get_world_matrix sceneParentBug "prop2" ≠ specWorldMatrix sceneParentBug "prop2" ∧
    ¬ max_abs_diff (spec_relative_offset sceneParentBug "hand1" "prop1")
        (spec_relative_offset sceneParentBug "hand2" "prop2") < 1/1000 := by
  have hloc : ∀ n : String, n ≠ "propGrp2" → sceneParentBug.localTransform n = 1 := by
    intro n hn
    simp [sceneParentBug, hn]
  have hlocG : sceneParentBug.localTransform "propGrp2" = (2 : ℚ) • 1 := by
    simp [sceneParentBug]
  have hoff : ∀ a b : String, a ≠ "propGrp2" → b ≠ "propGrp2" →
      get_local_offset sceneParentBug a b = 1 := by
    intro a b ha hb
    simp only [get_local_offset, get_world_matrix]
    rw [hloc b hb, hloc a ha, Mat4.inverse_eq, inv_one, mul_one]
  have hoffs : get_local_offset sceneParentBug "hand1" "prop1" = 1 :=
    hoff "hand1" "prop1" (by decide) (by decide)
  have hofft : get_local_offset sceneParentBug "hand2" "prop2" = 1 :=
    hoff "hand2" "prop2" (by decide) (by decide)
  have hw : ∀ n : String, n ≠ "propGrp2" → n ≠ "prop2" →
      sceneParentBug.findNode n
        = some ⟨n, "transform", none, [], [], []⟩ →
      specWorldMatrix sceneParentBug n = 1 := by
    intro n hn1 hn2 hf
    rw [show specWorldMatrix sceneParentBug n
        = worldMatrixAux sceneParentBug 5 n from rfl, worldMatrixAux_succ, hf]
    exact hloc n hn1
  have hw2 : specWorldMatrix sceneParentBug "prop2" = (2 : ℚ) • 1 := by
    have f1 : sceneParentBug.findNode "prop2"
        = some ⟨"prop2", "transform", some "propGrp2", [], [], []⟩ := by decide
    have f2 : sceneParentBug.findNode "propGrp2"
        = some ⟨"propGrp2", "transform", none, [], [], []⟩ := by decide
    rw [show specWorldMatrix sceneParentBug "prop2"
        = worldMatrixAux sceneParentBug 5 "prop2" from rfl, worldMatrixAux_succ, f1]
    show sceneParentBug.localTransform "prop2"
        * worldMatrixAux sceneParentBug 4 "propGrp2" = (2 : ℚ) • 1
    rw [worldMatrixAux_succ, f2]
    show sceneParentBug.localTransform "prop2"
        * sceneParentBug.localTransform "propGrp2" = (2 : ℚ) • 1
    rw [hloc "prop2" (by decide), hlocG, one_mul]
  have hwh1 : specWorldMatrix sceneParentBug "hand1" = 1 :=
    hw "hand1" (by decide) (by decide) (by decide)
  have hwp1 : specWorldMatrix sceneParentBug "prop1" = 1 :=
    hw "prop1" (by decide) (by decide) (by decide)
  have hwh2 : specWorldMatrix sceneParentBug "hand2" = 1 :=
    hw "hand2" (by decide) (by decide) (by decide)
  have hso : spec_relative_offset sceneParentBug "hand1" "prop1" = 1 := by
    rw [spec_relative_offset, hwp1, hwh1, Mat4.inverse_eq, inv_one, mul_one]
  have hto : spec_relative_offset sceneParentBug "hand2" "prop2" = (2 : ℚ) • 1 := by
    rw [spec_relative_offset, hw2, hwh2, Mat4.inverse_eq, inv_one, mul_one]
  refine ⟨?_, ?_, ?_, ?_⟩
  · show decide (max_abs_diff (get_local_offset sceneParentBug "hand1" "prop1")
        (get_local_offset sceneParentBug "hand2" "prop2") < 1/1000) = true
    rw [hoffs, hofft, max_abs_diff_self]
    simp only [decide_eq_true_eq]
    norm_num
  · show max_abs_diff (get_local_offset sceneParentBug "hand1" "prop1")
        (get_local_offset sceneParentBug "hand2" "prop2") = 0
    rw [hoffs, hofft, max_abs_diff_self]
  · simp only [get_world_matrix]
    rw [hloc "prop2" (by decide), hw2]
    intro h
    have h00 := congrFun (congrFun h 0) 0
    simp only [Matrix.one_apply_eq, Matrix.smul_apply, smul_eq_mul, mul_one] at h00
    norm_num at h00
  · rw [hso, hto]
    intro hlt
    have hb := le_max_abs_diff 1 ((2 : ℚ) • 1) 0 0
    simp only [Matrix.one_apply_eq, Matrix.smul_apply, smul_eq_mul, mul_one] at hb
    norm_num at hb
    linarith

end RelMtx
